import Mathlib

/-
  Verification of the BDsensor probing engine (klipper_Beta/BDsensor.py).

  Shallow embedding: the sensor protocol responses are modelled as a stream
  of integer codes (queries : Nat -> Int), calibrated distances as rationals,
  and each stateful routine as an explicit function on a small state record.
  Fallible routines return Except String.
-/

set_option maxHeartbeats 1000000
set_option maxRecDepth 2000

namespace BDspec

/-! ## Sensor channel: BDsensorEndstopWrapper.BD_Sensor_Read (lines 901-922)

The raw read phase: one I2C_BD_receive round trip; if the returned code is
at least 1024 it issues exactly one extra round trip and accepts that second
code unconditionally.  Returns the accepted raw code and the number of
round trips performed. -/
def bdReadRaw (queries : ℕ → ℤ) : ℤ × ℕ :=
  if queries 0 ≥ 1024 then (queries 1, 2) else (queries 0, 1)

/-- In BD_Sensor_Read, the command string 1018 (forced re-read) is sent
exactly when fore_r is positive (line 902-903). -/
def bdSendsForcedRead (fore_r : ℤ) : Bool := decide (fore_r > 0)

/-- BDsensorEndstopWrapper.BD_Sensor_Read: reads a raw code (with the single
re-query above), calibrates it as raw/100, and depending on the mode raises
a command error for the sentinel values: mode 0 raises for value at least
10.24 (connection error) or above 3.8 (out of range); mode 2 raises only for
value at least 10.24; every other mode returns the value unconditionally. -/
def BD_Sensor_Read (fore_r : ℤ) (queries : ℕ → ℤ) : Except String ℚ :=
  let intr := (bdReadRaw queries).1
  let bd_value : ℚ := (intr : ℚ) / 100
  if fore_r = 0 then
    if bd_value ≥ 1024 / 100 then
      .error "Bed Distance Sensor data error"
    else if bd_value > 38 / 10 then
      .error "Bed Distance Sensor, out of range."
    else .ok bd_value
  else if fore_r = 2 then
    if bd_value ≥ 1024 / 100 then
      .error "Bed Distance Sensor data error"
    else .ok bd_value
  else .ok bd_value

/-! ## Endstop query: BDsensorEndstopWrapper.query_endstop (lines 1135-1145) -/

/-- query_endstop: one forced re-read in mode 2 (which propagates the
connection-error failure), then params = 1 (triggered) unless the value is
strictly above position_endstop, in which case params = 0 (open). -/
def query_endstop (position_endstop : ℚ) (queries : ℕ → ℤ) : Except String ℕ :=
  match BD_Sensor_Read 2 queries with
  | .error e => .error e
  | .ok v => .ok (if v > position_endstop then 0 else 1)

/-! ## M102 S-2 distance report (process_M102, lines 1014-1024) -/

/-- The response rendered by M102 S-2. -/
inductive S2Response where
  | connectionError
  | outOfRange
  | distance (v : ℚ)
deriving DecidableEq, Repr

/-- process_M102 for S = -2: reads the sensor in mode 1, then renders the
value as text: exactly 10.24 becomes a connection-error message, otherwise
at least 3.9 an out-of-range message, otherwise the distance itself. -/
def process_M102_S2 (queries : ℕ → ℤ) : Except String S2Response :=
  match BD_Sensor_Read 1 queries with
  | .error e => .error e
  | .ok v =>
      .ok (if v = 1024 / 100 then .connectionError
           else if v ≥ 39 / 10 then .outOfRange
           else .distance v)

/-- Claim C2: every sensor read returns the accepted raw code divided by 100;
a first raw code of at least 1024 triggers exactly one extra query whose
result is accepted as-is (never more than two round trips). -/
theorem bd_sensor_read_requery (queries : ℕ → ℤ) :
    ((bdReadRaw queries).2 ≤ 2) ∧
    (queries 0 ≥ 1024 → bdReadRaw queries = (queries 1, 2)) ∧
    (queries 0 < 1024 → bdReadRaw queries = (queries 0, 1)) ∧
    (∀ fore_r v, BD_Sensor_Read fore_r queries = .ok v →
      v = ((bdReadRaw queries).1 : ℚ) / 100) := by
  refine ⟨?_, ?_, ?_, ?_⟩
  · unfold bdReadRaw; split <;> simp
  · intro h; unfold bdReadRaw; simp [h]
  · intro h; unfold bdReadRaw; rw [if_neg (by omega)]
  · intro fore_r v h
    unfold BD_Sensor_Read at h
    dsimp only at h
    split_ifs at h <;> simp_all

/-- Witness for claim C2 at the scenario from the spec: raw code 1025
followed by 1030 makes the read perform exactly two round trips and accept
the second code as-is. -/
theorem bd_sensor_read_requery_witness :
    (1025 : ℤ) ≥ 1024 ∧
      bdReadRaw (fun i => if i = 0 then 1025 else 1030) = (1030, 2) := by
  refine ⟨by norm_num, ?_⟩
  have h := (bd_sensor_read_requery (fun i => if i = 0 then 1025 else 1030)).2.1
    (by norm_num)
  simpa using h

/-- Claim C10: a mode-1 read (the M102 S-2 report) never raises: it always
returns the accepted raw code over 100; the connection-error and
out-of-range conditions are surfaced only as the S-2 response text, while
modes 0 and 2 raise fatal errors on a connection-error value. -/
theorem bd_sensor_read_mode1_total (queries : ℕ → ℤ) :
    (BD_Sensor_Read 1 queries = .ok (((bdReadRaw queries).1 : ℚ) / 100)) ∧
    (((bdReadRaw queries).1 : ℚ) / 100 ≥ 1024 / 100 →
      (∃ e, BD_Sensor_Read 0 queries = .error e) ∧
      (∃ e, BD_Sensor_Read 2 queries = .error e)) ∧
    (((bdReadRaw queries).1 : ℚ) / 100 = 1024 / 100 →
      process_M102_S2 queries = .ok .connectionError) ∧
    (((bdReadRaw queries).1 : ℚ) / 100 ≥ 39 / 10 →
      ((bdReadRaw queries).1 : ℚ) / 100 ≠ 1024 / 100 →
      process_M102_S2 queries = .ok .outOfRange) ∧
    (((bdReadRaw queries).1 : ℚ) / 100 < 39 / 10 →
      process_M102_S2 queries = .ok (.distance (((bdReadRaw queries).1 : ℚ) / 100))) := by
  have hmode1 : BD_Sensor_Read 1 queries = .ok (((bdReadRaw queries).1 : ℚ) / 100) := by
    unfold BD_Sensor_Read
    norm_num
  refine ⟨hmode1, ?_, ?_, ?_, ?_⟩
  · intro herr
    constructor
    · refine ⟨"Bed Distance Sensor data error", ?_⟩
      unfold BD_Sensor_Read; dsimp only
      rw [if_pos rfl, if_pos herr]
    · refine ⟨"Bed Distance Sensor data error", ?_⟩
      unfold BD_Sensor_Read; dsimp only
      rw [if_neg (by norm_num), if_pos rfl, if_pos herr]
  · intro hconn
    unfold process_M102_S2
    rw [hmode1]
    dsimp only
    simp [hconn]
  · intro hge hne
    unfold process_M102_S2
    rw [hmode1]
    dsimp only
    rw [if_neg hne, if_pos hge]
  · intro hlt
    unfold process_M102_S2
    rw [hmode1]
    dsimp only
    rw [if_neg (fun he => by rw [he] at hlt; norm_num at hlt),
      if_neg (not_le.mpr hlt)]

/-- Witness for claim C10: with both raw codes equal to 1024 the mode-1 read
returns 10.24 without raising, the S-2 report renders the connection-error
text, and modes 0 and 2 raise. -/
theorem bd_sensor_read_mode1_total_witness :
    BD_Sensor_Read 1 (fun _ => 1024) = .ok (1024 / 100) ∧
    process_M102_S2 (fun _ => 1024) = .ok .connectionError ∧
    (∃ e, BD_Sensor_Read 0 (fun _ => 1024) = .error e) := by
  have h := bd_sensor_read_mode1_total (fun _ => 1024)
  have hraw : ((bdReadRaw (fun _ => 1024)).1 : ℚ) / 100 = 1024 / 100 := by
    norm_num [bdReadRaw]
  refine ⟨?_, ?_, ?_⟩
  · rw [h.1, hraw]
  · exact h.2.2.1 hraw
  · exact (h.2.1 (le_of_eq hraw.symm)).1

/-- Claim C3: query_endstop performs a forced re-read in mode 2; a
connection-error reading makes it raise rather than return a state; any
other reading returns triggered (1) exactly when the value is at most the
configured threshold, and an out-of-range value in (3.8, 10.24) therefore
yields open (0), not an error. -/
theorem query_endstop_spec (thr : ℚ) (queries : ℕ → ℤ)
    (h0 : 0 ≤ thr) (h1 : thr < 5 / 2) :
    (bdSendsForcedRead 2 = true) ∧
    (((bdReadRaw queries).1 : ℚ) / 100 ≥ 1024 / 100 →
      ∃ e, query_endstop thr queries = .error e) ∧
    (∀ v, BD_Sensor_Read 2 queries = .ok v →
      query_endstop thr queries = .ok (if v ≤ thr then 1 else 0)) ∧
    (38 / 10 < ((bdReadRaw queries).1 : ℚ) / 100 →
      ((bdReadRaw queries).1 : ℚ) / 100 < 1024 / 100 →
      query_endstop thr queries = .ok 0) := by
  have hread : ∀ v, BD_Sensor_Read 2 queries = .ok v →
      v = ((bdReadRaw queries).1 : ℚ) / 100 :=
    fun v hv => (bd_sensor_read_requery queries).2.2.2 2 v hv
  refine ⟨by decide, ?_, ?_, ?_⟩
  · intro hconn
    refine ⟨"Bed Distance Sensor data error", ?_⟩
    unfold query_endstop
    have : BD_Sensor_Read 2 queries = .error "Bed Distance Sensor data error" := by
      unfold BD_Sensor_Read; dsimp only
      rw [if_neg (by norm_num), if_pos rfl, if_pos hconn]
    rw [this]
  · intro v hv
    unfold query_endstop
    rw [hv]
    dsimp only
    by_cases hle : v ≤ thr
    · rw [if_pos hle, if_neg (not_lt.mpr hle)]
    · rw [if_neg hle, if_pos (not_le.mp hle)]
  · intro hgt hlt
    have hok : BD_Sensor_Read 2 queries = .ok (((bdReadRaw queries).1 : ℚ) / 100) := by
      unfold BD_Sensor_Read; dsimp only
      rw [if_neg (by norm_num), if_pos rfl, if_neg (not_le.mpr hlt)]
    unfold query_endstop
    rw [hok]
    dsimp only
    rw [if_pos (by linarith)]

/-- Witness for claim C3 at the scenario from the spec: threshold 1.0 mm and
a sensor reading of 0.8 mm (raw code 80) yield the triggered state. -/
theorem query_endstop_spec_witness :
    query_endstop 1 (fun _ => 80) = .ok 1 := by
  have hok : BD_Sensor_Read 2 (fun _ => 80) = .ok (80 / 100) := by
    unfold BD_Sensor_Read bdReadRaw
    norm_num
  have h := (query_endstop_spec 1 (fun _ => 80) (by norm_num) (by norm_num)).2.2.1
    (80 / 100) hok
  rw [h, if_pos (by norm_num)]

/-! ## Multi-probe session state machine

BDsensorEndstopWrapper keeps the batch state in self.multi, one of the
strings OFF, FIRST, ON (lines 642, 1171-1207); PrinterProbe keeps the
pending flag multi_probe_pending (lines 32, 101-107). -/

inductive MultiState where
  | OFF
  | FIRST
  | ON
deriving DecidableEq, Repr

/-- Observable probing-engine state for the session claims: the
PrinterProbe pending flag, the wrapper batch state, the homeing flag set by
home_start, whether the physical probe is raised, and how many times the
post-homing axis correction (the G92 in multi_probe_end) has run. -/
structure BDState where
  pending : Bool
  multi : MultiState
  homeing : ℕ
  raised : Bool
  corrections : ℕ
deriving DecidableEq, Repr

/-- BDsensorEndstopWrapper.raise_probe (lines 1116-1124) prints and returns
immediately; the deactivate-gcode block below the return is unreachable, so
the state is unchanged. -/
def raise_probe (s : BDState) : BDState := s

/-- BDsensorEndstopWrapper.multi_probe_end (lines 1178-1196): sends the
finish-reading command, then if homeing is set reads the sensor in mode 0
(which can raise) and applies the G92 axis correction once; clears homeing;
then unless the configuration stows on each sample it raises the probe and
sets the batch state back to OFF.  When the mode-0 read raises, the
exception propagates with homeing and multi untouched. -/
def mcu_multi_probe_end (stow : Bool) (queries : ℕ → ℤ) (s : BDState) :
    BDState × Option String :=
  if s.homeing = 1 then
    match BD_Sensor_Read 0 queries with
    | .error e => (s, some e)
    | .ok _ =>
      let s1 : BDState := { s with corrections := s.corrections + 1, homeing := 0 }
      if stow then (s1, none) else ({ raise_probe s1 with multi := .OFF }, none)
  else
    let s1 : BDState := { s with homeing := 0 }
    if stow then (s1, none) else ({ raise_probe s1 with multi := .OFF }, none)

/-- PrinterProbe.multi_probe_end (lines 104-107): only if the pending flag
is set, clear it and run the wrapper teardown above. -/
def multi_probe_end (stow : Bool) (queries : ℕ → ℤ) (s : BDState) :
    BDState × Option String :=
  if s.pending then mcu_multi_probe_end stow queries { s with pending := false }
  else (s, none)

/-- BDsensorEndstopWrapper.multi_probe_begin (lines 1171-1176): a no-op when
the configuration stows on each sample, otherwise the batch state becomes
FIRST. -/
def mcu_multi_probe_begin (stow : Bool) (m : MultiState) : MultiState :=
  if stow then m else .FIRST

/-- BDsensorEndstopWrapper.probe_prepare (lines 1197-1202): lowers the probe
when the batch state is OFF or FIRST, and moves FIRST to ON. -/
def probe_prepare (m : MultiState) : MultiState :=
  if m = .OFF ∨ m = .FIRST then
    (if m = .FIRST then .ON else m)
  else m

/-- After the PrinterProbe-level teardown the pending flag is always
clear. -/
theorem multi_probe_end_pending (stow : Bool) (queries : ℕ → ℤ) (s : BDState)
    (h : s.pending = false) :
    (mcu_multi_probe_end stow queries s).1.pending = false := by
  unfold mcu_multi_probe_end raise_probe
  split
  · cases BD_Sensor_Read 0 queries <;> simp [h] <;> split <;> simp [h]
  · split <;> simp [h]

/-- Claim C4: multi_probe_end is idempotent: a second call right after a
first one leaves the state of the first call unchanged and raises nothing,
so the axis correction runs at most once; and calling it with no session
pending is a safe no-op. -/
theorem multi_probe_end_idempotent (stow : Bool) (queries : ℕ → ℤ) (s : BDState) :
    (multi_probe_end stow queries (multi_probe_end stow queries s).1 =
      ((multi_probe_end stow queries s).1, none)) ∧
    (s.pending = false → multi_probe_end stow queries s = (s, none)) := by
  constructor
  · by_cases hp : s.pending
    · have hclear : (multi_probe_end stow queries s).1.pending = false := by
        unfold multi_probe_end
        rw [if_pos hp]
        exact multi_probe_end_pending stow queries _ rfl
      conv_lhs => rw [multi_probe_end]
      rw [if_neg (by rw [hclear]; exact Bool.false_ne_true)]
    · have hs : multi_probe_end stow queries s = (s, none) := by
        unfold multi_probe_end
        rw [if_neg hp]
      rw [hs, hs]
  · intro h
    unfold multi_probe_end
    rw [if_neg (by rw [h]; exact Bool.false_ne_true)]

/-- Witness for claim C4: ending with no pending session, even with homeing
set, changes nothing and raises nothing. -/
theorem multi_probe_end_idempotent_witness :
    multi_probe_end false (fun _ => 0) ⟨false, .ON, 1, true, 0⟩ =
      (⟨false, .ON, 1, true, 0⟩, none) :=
  (multi_probe_end_idempotent false (fun _ => 0) ⟨false, .ON, 1, true, 0⟩).2 rfl

/-! ## Claim C8: session transitions -/

/-- The transition relation asserted by the claim: a state either does not
change, or moves OFF to FIRST (begin), FIRST to ON (probe_prepare), or back
to OFF (end); nothing else. -/
def claimedTransition (a b : MultiState) : Prop :=
  a = b ∨ (a = .OFF ∧ b = .FIRST) ∨ (a = .FIRST ∧ b = .ON) ∨ b = .OFF

instance (a b : MultiState) : Decidable (claimedTransition a b) := by
  unfold claimedTransition; infer_instance

/-- The wrapper teardown either leaves the batch state unchanged (stow mode,
or the error path of the mode-0 read) or sets it to OFF. -/
theorem mcu_multi_probe_end_multi (stow : Bool) (queries : ℕ → ℤ) (s : BDState) :
    (mcu_multi_probe_end stow queries s).1.multi = s.multi ∨
    (mcu_multi_probe_end stow queries s).1.multi = .OFF := by
  unfold mcu_multi_probe_end raise_probe
  split
  · cases h : BD_Sensor_Read 0 queries
    · simp
    · dsimp only
      split <;> simp
  · dsimp only
    split <;> simp

/-- Counterexample to claim C8: multi_probe_begin is not guarded against a
pending session; invoked with the batch state ON (and stowing disabled) it
moves ON to FIRST, a transition outside the claimed set. -/
theorem multi_probe_begin_breaks_order :
    mcu_multi_probe_begin false .ON = .FIRST ∧
    ¬ claimedTransition .ON .FIRST := by
  constructor
  · rfl
  · decide

/-- Claim C8 as amended: begin always produces FIRST when stowing is off
(so also ON to FIRST when misused reentrantly) and is a no-op when stowing
is on; probe_prepare moves FIRST to ON and fixes OFF and ON; teardown only
moves the batch state to OFF or leaves it unchanged; and whenever begin is
only invoked with the state OFF (or stowing on), every operation performs
one of the claimed transitions. -/
theorem session_transitions_amended (stow : Bool) (m : MultiState)
    (queries : ℕ → ℤ) (s : BDState) (hs : s.multi = m) :
    (stow = false → mcu_multi_probe_begin stow m = .FIRST) ∧
    (stow = true → mcu_multi_probe_begin stow m = m) ∧
    (probe_prepare .OFF = .OFF ∧ probe_prepare .FIRST = .ON ∧
      probe_prepare .ON = .ON) ∧
    claimedTransition m (probe_prepare m) ∧
    claimedTransition m (mcu_multi_probe_end stow queries s).1.multi ∧
    ((m = .OFF ∨ stow = true) →
      claimedTransition m (mcu_multi_probe_begin stow m)) := by
  refine ⟨?_, ?_, ⟨rfl, rfl, rfl⟩, ?_, ?_, ?_⟩
  · intro h; simp [mcu_multi_probe_begin, h]
  · intro h; simp [mcu_multi_probe_begin, h]
  · cases m <;> decide
  · rcases mcu_multi_probe_end_multi stow queries s with h | h
    · exact Or.inl (hs ▸ h.symm)
    · exact Or.inr (Or.inr (Or.inr h))
  · rintro (h | h)
    · subst h; cases stow <;> simp [mcu_multi_probe_begin, claimedTransition]
    · subst h; simp [mcu_multi_probe_begin, claimedTransition]

/-- Witness for claim C8 as amended: at a concrete OFF state with stowing
off, begin yields FIRST and the teardown transition is among the claimed
ones. -/
theorem session_transitions_amended_witness :
    mcu_multi_probe_begin false .OFF = .FIRST ∧
    claimedTransition .OFF
      (mcu_multi_probe_end false (fun _ => 0) ⟨true, .OFF, 0, true, 0⟩).1.multi := by
  have h := session_transitions_amended false .OFF (fun _ => 0)
    ⟨true, .OFF, 0, true, 0⟩ rfl
  exact ⟨h.1 rfl, h.2.2.2.2.1⟩

/-! ## Sample aggregation: PrinterProbe._calc_mean and _calc_median
(lines 140-151) -/

/-- A probed 3-D position. -/
structure Pos3 where
  x : ℚ
  y : ℚ
  z : ℚ
deriving DecidableEq, Repr

/-- PrinterProbe._calc_mean: per-axis arithmetic average. -/
def calc_mean (positions : List Pos3) : Pos3 :=
  ⟨(positions.map Pos3.x).sum / positions.length,
   (positions.map Pos3.y).sum / positions.length,
   (positions.map Pos3.z).sum / positions.length⟩

/-- The samples sorted by their z coordinate (the sorted(..., key z) in
_calc_median); mergeSort is stable like the Python sort. -/
def zSorted (positions : List Pos3) : List Pos3 :=
  positions.mergeSort (fun a b => decide (a.z ≤ b.z))

/-- PrinterProbe._calc_median: middle element of the z-sorted list for an
odd sample count, else the mean of the slice holding the two middle
elements. -/
def calc_median (positions : List Pos3) : Pos3 :=
  let middle := positions.length / 2
  if positions.length % 2 = 1 then (zSorted positions).getD middle ⟨0, 0, 0⟩
  else calc_mean (((zSorted positions).drop (middle - 1)).take 2)

theorem getD_of_lt (l : List Pos3) (i : ℕ) (d : Pos3) (h : i < l.length) :
    l.getD i d = l[i] := by
  simp [List.getD_eq_getElem?_getD, List.getElem?_eq_getElem h]

theorem take_two_drop (l : List Pos3) (i : ℕ) (d : Pos3) (h : i + 1 < l.length) :
    (l.drop i).take 2 = [l.getD i d, l.getD (i + 1) d] := by
  have h1 : i < l.length := by omega
  rw [List.drop_eq_getElem_cons h1, List.drop_eq_getElem_cons h,
    getD_of_lt _ _ _ h1, getD_of_lt _ _ _ h]
  rfl

/-- Claim C5: on a non-empty sample list, mean aggregation is the per-axis
arithmetic average; the z-sorted list is a permutation of the samples,
sorted by z; median aggregation returns the middle element of the z-sorted
list (a genuine sample) for odd length, and the elementwise mean of the two
middle elements for even length. -/
theorem calc_aggregation_spec (ps : List Pos3) (hne : ps ≠ []) :
    (calc_mean ps = ⟨(ps.map Pos3.x).sum / ps.length,
        (ps.map Pos3.y).sum / ps.length, (ps.map Pos3.z).sum / ps.length⟩) ∧
    ((zSorted ps).Perm ps) ∧
    ((zSorted ps).Pairwise (fun a b => a.z ≤ b.z)) ∧
    (ps.length % 2 = 1 →
      calc_median ps = (zSorted ps).getD (ps.length / 2) ⟨0, 0, 0⟩ ∧
      calc_median ps ∈ ps) ∧
    (ps.length % 2 = 0 →
      calc_median ps =
        ⟨(((zSorted ps).getD (ps.length / 2 - 1) ⟨0, 0, 0⟩).x +
            ((zSorted ps).getD (ps.length / 2) ⟨0, 0, 0⟩).x) / 2,
         (((zSorted ps).getD (ps.length / 2 - 1) ⟨0, 0, 0⟩).y +
            ((zSorted ps).getD (ps.length / 2) ⟨0, 0, 0⟩).y) / 2,
         (((zSorted ps).getD (ps.length / 2 - 1) ⟨0, 0, 0⟩).z +
            ((zSorted ps).getD (ps.length / 2) ⟨0, 0, 0⟩).z) / 2⟩) := by
  have hlen : (zSorted ps).length = ps.length := by
    simpa [zSorted] using (List.mergeSort_perm ps _).length_eq
  have hpos : 0 < ps.length := List.length_pos.mpr hne
  refine ⟨rfl, ?_, ?_, ?_, ?_⟩
  · exact List.mergeSort_perm ps _
  · have hs := @List.sorted_mergeSort Pos3
      (fun a b : Pos3 => decide (a.z ≤ b.z))
      (fun a b c hab hbc => by
        simp only [decide_eq_true_eq] at *; linarith)
      (fun a b => by
        simp only [Bool.or_eq_true, decide_eq_true_eq]; exact le_total a.z b.z)
      ps
    exact hs.imp (fun h => by simpa using h)
  · intro hodd
    have hm : ps.length / 2 < (zSorted ps).length := by rw [hlen]; omega
    refine ⟨by unfold calc_median; rw [if_pos hodd], ?_⟩
    unfold calc_median
    rw [if_pos hodd, getD_of_lt _ _ _ hm]
    exact (List.mergeSort_perm ps _).mem_iff.mp (List.getElem_mem hm)
  · intro heven
    have h2 : 2 ≤ ps.length := by omega
    have hm1 : ps.length / 2 - 1 + 1 < (zSorted ps).length := by rw [hlen]; omega
    unfold calc_median
    rw [if_neg (by omega)]
    rw [take_two_drop _ _ ⟨0, 0, 0⟩ hm1]
    have harith : ps.length / 2 - 1 + 1 = ps.length / 2 := by omega
    rw [harith]
    unfold calc_mean
    simp

/-- Witness for claim C5 on the concrete odd-length sample list from the
spec accuracy scenario: the median is the sample with the middle z. -/
theorem calc_aggregation_spec_witness :
    ([⟨0, 0, 3⟩, ⟨0, 0, 1⟩, ⟨0, 0, 2⟩] : List Pos3) ≠ [] ∧
    calc_median [⟨0, 0, 3⟩, ⟨0, 0, 1⟩, ⟨0, 0, 2⟩] ∈
      ([⟨0, 0, 3⟩, ⟨0, 0, 1⟩, ⟨0, 0, 2⟩] : List Pos3) := by
  refine ⟨by simp, ?_⟩
  exact ((calc_aggregation_spec [⟨0, 0, 3⟩, ⟨0, 0, 1⟩, ⟨0, 0, 2⟩]
    (by simp)).2.2.2.1 (by simp)).2

/-! ## M102 S-5 raw-value dump (process_M102, lines 970-992) -/

/-- Outcome of the raw-value dump loop: the fatal mounted-too-close-or-
too-high error, the two non-fatal reports, or the 40-poll ceiling. -/
inductive M102Event where
  | fatalTooCloseOrHigh
  | tooHigh
  | tooClose
  | limitReached
deriving DecidableEq, Repr

/-- One iteration of the S-5 loop on sample index ncount1 with raw value
intd: when ncount1 is at most 3 and intd exceeds 550, values of at least
1015 raise the fatal too-close-or-too-high error and smaller ones report
too high; otherwise a value below 45 reports too close; otherwise the loop
continues (none). -/
def m102s5_step (ncount1 : ℕ) (intd : ℤ) : Option M102Event :=
  if ncount1 ≤ 3 ∧ intd > 550 then
    (if intd ≥ 1015 then some .fatalTooCloseOrHigh else some .tooHigh)
  else if intd < 45 then some .tooClose
  else none

/-- The full S-5 loop: iterate the step on successive raw readings,
stopping after the 40th poll. -/
def m102s5_run (readings : ℕ → ℤ) : ℕ → ℕ → M102Event
  | 0, _ => .limitReached
  | fuel + 1, c =>
    match m102s5_step c (readings c) with
    | some e => e
    | none =>
      if c + 1 ≥ 40 then .limitReached else m102s5_run readings fuel (c + 1)

/-- The per-sample report exactly as claim C9 words it: raw strictly above
1015 is the fatal report; raw in (550, 1015] seen after at least 3 samples
reports too high; raw below 45 reports too close. -/
def m102s5_claim_report (samples_seen : ℕ) (intd : ℤ) : Option M102Event :=
  if intd > 1015 then some .fatalTooCloseOrHigh
  else if 550 < intd ∧ intd ≤ 1015 ∧ 3 ≤ samples_seen then some .tooHigh
  else if intd < 45 then some .tooClose
  else none

/-- Counterexample to claim C9: at the very first sample a raw value of
exactly 1015 is already fatal in the code while the claim calls it a
non-fatal too-high report, and a raw value of 1016 at the fifth sample is
ignored by the code while the claim calls it fatal. -/
theorem m102s5_thresholds_counterexample :
    m102s5_step 0 1015 = some .fatalTooCloseOrHigh ∧
    m102s5_claim_report 0 1015 ≠ some .fatalTooCloseOrHigh ∧
    m102s5_step 4 1016 = none ∧
    m102s5_claim_report 4 1016 = some .fatalTooCloseOrHigh := by
  refine ⟨?_, ?_, ?_, ?_⟩ <;> decide

/-- Claim C9 as amended: the mount-height checks other than the too-close
one apply only to the first four samples (ncount1 at most 3); there, raw of
at least 1015 is the fatal too-close-or-too-high report and raw in
(550, 1015) is the non-fatal too-high report; raw below 45 reports
too close at any sample; everything else continues the loop, and only the
fatal case raises. -/
theorem m102s5_step_characterization (c : ℕ) (i : ℤ) :
    (m102s5_step c i = some .fatalTooCloseOrHigh ↔ c ≤ 3 ∧ 1015 ≤ i) ∧
    (m102s5_step c i = some .tooHigh ↔ c ≤ 3 ∧ 550 < i ∧ i < 1015) ∧
    (m102s5_step c i = some .tooClose ↔ i < 45) ∧
    (m102s5_step c i = none ↔ 45 ≤ i ∧ (4 ≤ c ∨ i ≤ 550)) := by
  unfold m102s5_step
  split_ifs with h1 h2 h3 <;>
    simp_all <;> omega

/-- The S-5 loop run on a sensor stuck at raw 1015 raises the fatal report
immediately. -/
theorem m102s5_run_fatal_at_1015 :
    m102s5_run (fun _ => 1015) 40 0 = .fatalTooCloseOrHigh := by
  decide

/-! ## Continuous-scan dispatch: ProbePointsHelper.start_probe
(lines 470-486) -/

/-- A Python exception as far as the start_probe dispatch distinguishes
them: an AttributeError, or anything else. -/
inductive PyErr where
  | attrError
  | other (msg : String)
deriving DecidableEq, Repr

/-- How the probing batch is carried out. -/
inductive ScanOutcome where
  | fastScan
  | perPoint
deriving DecidableEq, Repr

/-- The start_probe dispatch between continuous scanning and per-point
probing: only for BED_MESH_CALIBRATE, and only when the probe object has a
no_stop_probe attribute that is not None, is the fast scan attempted; the
surrounding try/except catches AttributeError alone, so a missing attribute
falls back to per-point probing while any other exception from the fast
scan propagates.  The attribute is modelled as Option (Option String):
none when the attribute is missing, some none when it is set to None. -/
def start_probe_dispatch (isBedMeshCalibrate : Bool)
    (no_stop_probe_attr : Option (Option String))
    (fastResult : Except PyErr Unit) : Except PyErr ScanOutcome :=
  if isBedMeshCalibrate then
    match no_stop_probe_attr with
    | none => .ok .perPoint
    | some none => .ok .perPoint
    | some (some _) =>
      match fastResult with
      | .ok _ => .ok .fastScan
      | .error .attrError => .ok .perPoint
      | .error (.other m) => .error (.other m)
  else .ok .perPoint

/-- Counterexample to claim C7: a non-AttributeError exception raised
during continuous scanning propagates out of start_probe instead of
falling back to per-point probing. -/
theorem start_probe_no_general_fallback :
    start_probe_dispatch true (some (some "nsp")) (.error (.other "probe error")) =
      .error (.other "probe error") ∧
    start_probe_dispatch true (some (some "nsp")) (.error (.other "probe error")) ≠
      .ok .perPoint := by
  refine ⟨rfl, ?_⟩
  intro h
  simp [start_probe_dispatch] at h

/-- Claim C7 as amended: start_probe falls back to per-point sample
acquisition when the probe does not expose the non-stop capability (the
attribute is missing, raising AttributeError, or configured to None) and
when the fast scan itself raises AttributeError; a fast scan that succeeds
is used as-is, and any other exception propagates and aborts start_probe
rather than falling back. -/
theorem start_probe_fallback (attr : Option (Option String))
    (fastResult : Except PyErr Unit) :
    (start_probe_dispatch true none fastResult = .ok .perPoint) ∧
    (start_probe_dispatch true (some none) fastResult = .ok .perPoint) ∧
    (∀ c, start_probe_dispatch true (some (some c)) (.error .attrError) =
      .ok .perPoint) ∧
    (∀ c, start_probe_dispatch true (some (some c)) (.ok ()) = .ok .fastScan) ∧
    (∀ c msg, start_probe_dispatch true (some (some c)) (.error (.other msg)) =
      .error (.other msg)) ∧
    (start_probe_dispatch false attr fastResult = .ok .perPoint) := by
  refine ⟨rfl, rfl, fun c => rfl, fun c => rfl, fun c msg => rfl, rfl⟩

/-! ## Sample acquisition: PrinterProbe.run_probe (lines 152-217)

The probing loop is modelled over the stream of z readings the successive
probe attempts produce (readings idx is the z position of attempt idx); x
and y stay at the commanded probe position and play no part in the
tolerance logic. -/

/-- Python max over a list of rationals (0 for the empty list, which the
loop never queries). -/
def listMax : List ℚ → ℚ
  | [] => 0
  | x :: xs => xs.foldl max x

/-- Python min over a list of rationals. -/
def listMin : List ℚ → ℚ
  | [] => 0
  | x :: xs => xs.foldl min x

/-- The spread max(z) - min(z) checked against samples_tolerance. -/
def spread (zs : List ℚ) : ℚ := listMax zs - listMin zs

/-- The run_probe sampling loop (lines 171-211, mechanical-probe path;
the direct-read path of lines 174-195 applies the identical tolerance
logic): while fewer than sample_count samples are collected, probe once and
append; if the spread of all samples collected so far exceeds the
tolerance, fail when the retries are used up, else discard every sample and
retry; finally return the collected samples. -/
def runProbeLoop (readings : ℕ → ℚ) (sample_count : ℕ) (tol : ℚ)
    (retries_budget : ℕ) (idx retries : ℕ) (positions : List ℚ) :
    Except String (List ℚ) :=
  if h : positions.length < sample_count then
    if spread (positions ++ [readings idx]) > tol then
      if retries ≥ retries_budget then
        .error "Probe samples exceed samples_tolerance"
      else
        runProbeLoop readings sample_count tol retries_budget (idx + 1)
          (retries + 1) []
    else
      runProbeLoop readings sample_count tol retries_budget (idx + 1) retries
        (positions ++ [readings idx])
  else .ok positions
termination_by (retries_budget - retries, sample_count - positions.length)
decreasing_by
  · apply Prod.Lex.left
    omega
  · have hl : (positions ++ [readings idx]).length = positions.length + 1 := by
      simp
    rw [hl]
    apply Prod.Lex.right
    omega

/-- Every successful run of the sampling loop returns exactly sample_count
samples whose spread is within tolerance, provided the incoming sample list
respects the invariant (empty, or already within tolerance). -/
theorem runProbeLoop_ok_spread (readings : ℕ → ℚ) (sample_count : ℕ) (tol : ℚ)
    (retries_budget : ℕ) (idx retries : ℕ) (positions : List ℚ)
    (hlen : positions.length ≤ sample_count)
    (hinv : positions = [] ∨ spread positions ≤ tol) (ps : List ℚ)
    (h : runProbeLoop readings sample_count tol retries_budget idx retries
      positions = .ok ps) :
    ps.length = sample_count ∧ (1 ≤ sample_count → spread ps ≤ tol) := by
  rw [runProbeLoop] at h
  by_cases h1 : positions.length < sample_count
  · rw [dif_pos h1] at h
    by_cases h2 : spread (positions ++ [readings idx]) > tol
    · rw [if_pos h2] at h
      by_cases h3 : retries ≥ retries_budget
      · rw [if_pos h3] at h
        exact absurd h (by simp)
      · rw [if_neg h3] at h
        exact runProbeLoop_ok_spread readings sample_count tol retries_budget
          (idx + 1) (retries + 1) [] (Nat.zero_le _) (Or.inl rfl) ps h
    · rw [if_neg h2] at h
      exact runProbeLoop_ok_spread readings sample_count tol retries_budget
        (idx + 1) retries (positions ++ [readings idx])
        (by simp only [List.length_append, List.length_singleton]; omega)
        (Or.inr (not_lt.mp h2)) ps h
  · rw [dif_neg h1] at h
    have hps : ps = positions := by
      simpa using h.symm
    subst hps
    have hfull : ps.length = sample_count := by omega
    refine ⟨hfull, fun hsc => ?_⟩
    rcases hinv with hnil | hsp
    · rw [hnil] at hfull
      simp at hfull
      omega
    · exact hsp
termination_by (retries_budget - retries, sample_count - positions.length)
decreasing_by
  · apply Prod.Lex.left
    omega
  · have hl : (positions ++ [readings idx]).length = positions.length + 1 := by
      simp
    rw [hl]
    apply Prod.Lex.right
    omega

/-- Claim C1: for sample count at least 1, tolerance at least 0 and any
retry budget, a successful run_probe aggregates a sample set of exactly
sample_count samples with max(z) - min(z) at most the tolerance; and
whenever the spread of the samples collected so far exceeds the tolerance,
the loop discards all samples and restarts when a retry remains, and
otherwise fails with the tolerance-exceeded error. -/
theorem run_probe_tolerance (readings : ℕ → ℚ) (sample_count : ℕ) (tol : ℚ)
    (retries_budget : ℕ) (hn : 1 ≤ sample_count) (htol : 0 ≤ tol) :
    (∀ idx ps, runProbeLoop readings sample_count tol retries_budget idx 0 []
        = .ok ps → ps.length = sample_count ∧ spread ps ≤ tol) ∧
    (∀ idx retries positions, positions.length < sample_count →
      spread (positions ++ [readings idx]) > tol →
      runProbeLoop readings sample_count tol retries_budget idx retries
          positions =
        (if retries < retries_budget then
          runProbeLoop readings sample_count tol retries_budget (idx + 1)
            (retries + 1) []
        else .error "Probe samples exceed samples_tolerance")) := by
  constructor
  · intro idx ps h
    have := runProbeLoop_ok_spread readings sample_count tol retries_budget
      idx 0 [] (Nat.zero_le _) (Or.inl rfl) ps h
    exact ⟨this.1, this.2 hn⟩
  · intro idx retries positions hlen hsp
    rw [runProbeLoop, dif_pos hlen, if_pos hsp]
    by_cases hr : retries < retries_budget
    · rw [if_neg (by omega), if_pos hr]
    · rw [if_pos (by omega), if_neg hr]

/-- Witness for claim C1 on the tolerance scenario from the spec: with
sample count 3, tolerance 1/20 and one retry, the stream whose first three
readings are 1, 101/100, 109/100 (spread 9/100 above tolerance) followed by
1, 1, 1 makes the loop restart once and succeed with three in-tolerance
samples. -/
theorem run_probe_tolerance_witness :
    runProbeLoop (fun i => if i = 0 then 1 else if i = 1 then 101 / 100
        else if i = 2 then 109 / 100 else 1) 3 (1 / 20) 1 0 0 [] =
      .ok [1, 1, 1] ∧
    ([1, 1, 1] : List ℚ).length = 3 ∧ spread [1, 1, 1] ≤ 1 / 20 := by
  have hrun : runProbeLoop (fun i => if i = 0 then 1 else if i = 1 then 101 / 100
      else if i = 2 then 109 / 100 else 1) 3 (1 / 20) 1 0 0 [] =
      .ok [1, 1, 1] := by
    rw [runProbeLoop]
    norm_num [spread, listMax, listMin]
    rw [runProbeLoop]
    norm_num [spread, listMax, listMin]
    rw [runProbeLoop]
    norm_num [spread, listMax, listMin]
    rw [runProbeLoop]
    norm_num [spread, listMax, listMin]
    rw [runProbeLoop]
    norm_num [spread, listMax, listMin]
    rw [runProbeLoop]
    norm_num [spread, listMax, listMin]
    rw [runProbeLoop]
    norm_num
  refine ⟨hrun, ?_⟩
  exact (run_probe_tolerance _ 3 (1 / 20) 1 (by norm_num) (by norm_num)).1 0
    [1, 1, 1] hrun

/-! ## Continuous scan: ProbePointsHelper.fast_probe_oneline (lines 402-430)

The polling loop is modelled over the sequence of poll iterations: elapsed
gives the estimated elapsed time since the start of the line at each poll
(est_time - start_time), and cont the combined continue condition (the
while condition together with can_pause) at each poll.  One poll takes at
most one sample: when the elapsed time has reached the x_index-th of
(n_count - 1) equal subdivisions of line_time, the sensor is read and the
result recorded for mesh column x_index, which is then advanced.  The
recorded list holds the pairs (column, poll index).  Accessing
oneline_points out of range is the IndexError case. -/

def fastLoop (elapsed : ℕ → ℚ) (cont : ℕ → Bool) (line_time : ℚ)
    (n_count : ℕ) : ℕ → ℕ → ℕ → Except String (List (ℕ × ℕ))
  | 0, _, _ => .error "out of fuel"
  | fuel + 1, p, k =>
    if cont p = true then
      if elapsed p ≥ (k : ℚ) * line_time / ((n_count : ℚ) - 1) then
        if k < n_count then
          match fastLoop elapsed cont line_time n_count fuel (p + 1) (k + 1) with
          | .ok rest => .ok ((k, p) :: rest)
          | .error e => .error e
        else .error "IndexError oneline_points"
      else fastLoop elapsed cont line_time n_count fuel (p + 1) k
    else .ok []

/-- First-crossing polls are monotone when consecutive ones are strictly
separated. -/
theorem first_crossing_mono (n : ℕ) (j : ℕ → ℕ)
    (hsep : ∀ k, k + 1 < n → j k < j (k + 1)) :
    ∀ a b, a ≤ b → b < n → j a ≤ j b := by
  intro a b
  induction b with
  | zero =>
    intro hab _
    have ha : a = 0 := by omega
    rw [ha]
  | succ b ih =>
    intro hab hb
    rcases Nat.lt_or_ge a (b + 1) with hlt | hge
    · have h1 : j a ≤ j b := ih (by omega) (by omega)
      have h2 : j b < j (b + 1) := hsep b hb
      omega
    · have : a = b + 1 := by omega
      rw [this]

/-- Once every column is recorded, the loop keeps polling without recording
(the elapsed time never reaches the out-of-range subdivision n_count) until
the continue condition goes false, and then stops cleanly. -/
theorem fastLoop_drain (elapsed : ℕ → ℚ) (cont : ℕ → Bool) (line_time : ℚ)
    (n_count : ℕ) (S : ℕ) (hS2 : cont S = false)
    (hS3 : ∀ p, p < S → cont p = true)
    (hless : ∀ p, p < S →
      elapsed p < (n_count : ℚ) * line_time / ((n_count : ℚ) - 1)) :
    ∀ fuel q, q ≤ S → S < fuel + q →
      fastLoop elapsed cont line_time n_count fuel q n_count = .ok [] := by
  intro fuel
  induction fuel with
  | zero =>
    intro q h1 h2
    omega
  | succ f ih =>
    intro q h1 h2
    by_cases hq : q = S
    · subst hq
      simp only [fastLoop]
      rw [if_neg (by rw [hS2]; exact Bool.false_ne_true)]
    · have hqlt : q < S := lt_of_le_of_ne h1 hq
      have hc : cont q = true := hS3 q hqlt
      have he : ¬ ((n_count : ℚ) * line_time / ((n_count : ℚ) - 1) ≤ elapsed q) :=
        not_le.mpr (hless q hqlt)
      simp only [fastLoop]
      rw [if_pos hc, if_neg he]
      exact ih (q + 1) (by omega) (by omega)

/-- Core of claim C6: from any poll p at or before the first crossing of
the current column k, the loop records exactly the remaining columns
k, k+1, ..., n_count-1 in order, each at its first-crossing poll. -/
theorem fastLoop_records (elapsed : ℕ → ℚ) (cont : ℕ → Bool) (line_time : ℚ)
    (n_count : ℕ) (j : ℕ → ℕ) (S : ℕ)
    (hn : 2 ≤ n_count)
    (hj1 : ∀ k, k < n_count →
      (k : ℚ) * line_time / ((n_count : ℚ) - 1) ≤ elapsed (j k))
    (hj2 : ∀ k, k < n_count → ∀ p, p < j k →
      elapsed p < (k : ℚ) * line_time / ((n_count : ℚ) - 1))
    (hsep : ∀ k, k + 1 < n_count → j k < j (k + 1))
    (hS1 : j (n_count - 1) < S)
    (hS2 : cont S = false)
    (hS3 : ∀ p, p < S → cont p = true)
    (hless : ∀ p, p < S →
      elapsed p < (n_count : ℚ) * line_time / ((n_count : ℚ) - 1)) :
    ∀ fuel p k, k < n_count → p ≤ j k → S < fuel + p →
      fastLoop elapsed cont line_time n_count fuel p k =
        .ok (((List.range n_count).drop k).map (fun i => (i, j i))) := by
  intro fuel
  induction fuel with
  | zero =>
    intro p k hk hp hf
    have hjle : j k ≤ j (n_count - 1) :=
      first_crossing_mono n_count j hsep k (n_count - 1) (by omega) (by omega)
    omega
  | succ f ih =>
    intro p k hk hp hf
    have hjle : j k ≤ j (n_count - 1) :=
      first_crossing_mono n_count j hsep k (n_count - 1) (by omega) (by omega)
    have hpS : p < S := by omega
    have hc : cont p = true := hS3 p hpS
    have hdrop : (List.range n_count).drop k =
        k :: (List.range n_count).drop (k + 1) := by
      rw [List.drop_eq_getElem_cons (by simpa using hk)]
      simp
    rcases Nat.lt_or_eq_of_le hp with hplt | hpeq
    · have he : ¬ ((k : ℚ) * line_time / ((n_count : ℚ) - 1) ≤ elapsed p) :=
        not_le.mpr (hj2 k hk p hplt)
      simp only [fastLoop]
      rw [if_pos hc, if_neg he]
      exact ih (p + 1) k hk (by omega) (by omega)
    · have he : (k : ℚ) * line_time / ((n_count : ℚ) - 1) ≤ elapsed p := by
        rw [hpeq]
        exact hj1 k hk
      simp only [fastLoop]
      rw [if_pos hc, if_pos he, if_pos hk]
      by_cases hk1 : k + 1 < n_count
      · have hrec := ih (p + 1) (k + 1) hk1
          (by have := hsep k hk1; omega) (by omega)
        rw [hrec]
        rw [hdrop]
        simp [hpeq]
      · have hk1n : k + 1 = n_count := by omega
        have hdrain := fastLoop_drain elapsed cont line_time n_count S hS2 hS3
          hless f (p + 1) (by omega) (by omega)
        rw [hk1n, hdrain]
        rw [hdrop]
        have hend : (List.range n_count).drop (k + 1) = [] := by
          rw [hk1n]
          exact List.drop_eq_nil_of_le (by simp)
        rw [hend]
        simp [hpeq]

/-- Claim C6: during a continuous scan of one line of n_count points whose
single move spans line_time, with j k the first poll at which the estimated
elapsed time reaches the k-th of (n_count - 1) equal subdivisions (the
crossings being separated by at least one poll), and with the loop
continuing until poll S after the last crossing while the elapsed time
stays below the out-of-range subdivision: the loop records exactly one
reading per mesh column, in increasing column order, sample k being taken
at poll j k. -/
theorem fast_probe_oneline_schedule (elapsed : ℕ → ℚ) (cont : ℕ → Bool)
    (line_time : ℚ) (n_count : ℕ) (j : ℕ → ℕ) (S fuel : ℕ)
    (hn : 2 ≤ n_count)
    (hj1 : ∀ k, k < n_count →
      (k : ℚ) * line_time / ((n_count : ℚ) - 1) ≤ elapsed (j k))
    (hj2 : ∀ k, k < n_count → ∀ p, p < j k →
      elapsed p < (k : ℚ) * line_time / ((n_count : ℚ) - 1))
    (hsep : ∀ k, k + 1 < n_count → j k < j (k + 1))
    (hS1 : j (n_count - 1) < S)
    (hS2 : cont S = false)
    (hS3 : ∀ p, p < S → cont p = true)
    (hless : ∀ p, p < S →
      elapsed p < (n_count : ℚ) * line_time / ((n_count : ℚ) - 1))
    (hfuel : S < fuel) :
    fastLoop elapsed cont line_time n_count fuel 0 0 =
      .ok ((List.range n_count).map (fun i => (i, j i))) := by
  have h := fastLoop_records elapsed cont line_time n_count j S hn hj1 hj2
    hsep hS1 hS2 hS3 hless fuel 0 0 (by omega) (Nat.zero_le _) (by omega)
  simpa using h

/-- Witness for claim C6 on the scenario from the spec: a 5-point line
spanning 2 seconds, polled every half second, records sample k at poll k,
the first poll whose elapsed time reaches k/2 seconds. -/
theorem fast_probe_oneline_schedule_witness :
    fastLoop (fun p => (p : ℚ) / 2) (fun p => decide (p < 5)) 2 5 6 0 0 =
      .ok [(0, 0), (1, 1), (2, 2), (3, 3), (4, 4)] := by
  have h := fast_probe_oneline_schedule (fun p => (p : ℚ) / 2)
    (fun p => decide (p < 5)) 2 5 (fun k => k) 5 6
    (by norm_num)
    (by
      intro k hk
      dsimp only
      push_cast
      linarith)
    (by
      intro k hk p hpk
      dsimp only at hpk ⊢
      have hcast : (p : ℚ) < (k : ℚ) := by exact_mod_cast hpk
      push_cast
      linarith)
    (by intro k hk; dsimp only; omega)
    (by norm_num)
    (by decide)
    (by intro p hp; simp [hp])
    (by
      intro p hp
      dsimp only
      have hcast : (p : ℚ) ≤ 4 := by exact_mod_cast Nat.lt_succ_iff.mp hp
      push_cast
      linarith)
    (by norm_num)
  rw [h]
  rfl

end BDspec
